import Mathlib

/-!
Verification development for the ingestion-and-summarization pipeline of
`main.py` (AI Code Explainer).  The Python source is shallowly embedded:
pure transformations become Lean functions, the HTTP transport becomes
explicit outcome data carried in the repository tree, the two LLM calls
become a function `String → Option String` (`none` models a raised
exception), and `main`'s control flow becomes a total function producing a
`RunOutput` record of its observable effects.
-/

/-! ## os.path.splitext (used at `main.py` line 76)

`file_ext = os.path.splitext(item['name'])[1]`.  CPython's `splitext`
finds the last `.` after the last `/`; if every character of the final
path segment before that last dot is itself a dot, the extension is
empty, otherwise it is the substring from the last dot to the end. -/

/-- Index of the last occurrence of `c` in `l`, scanning with a running
index, mirroring Python's `str.rfind` (which `posixpath.splitext` uses). -/
def rfindAux (c : Char) : List Char → Nat → Option Nat
  | [], _ => none
  | x :: xs, i =>
    match rfindAux c xs (i + 1) with
    | some j => some j
    | none => if x = c then some i else none

/-- Last index of `c` in `l`, or `none` when absent (Python `rfind` = -1). -/
def rfind (c : Char) (l : List Char) : Option Nat :=
  rfindAux c l 0

/-- The extension part returned by `os.path.splitext(p)[1]` (posix rules:
`sep = '/'`, `extsep = '.'`, no altsep).  Faithful to CPython's
`genericpath._splitext`: if every character strictly between the last
separator and the last dot is a dot, the extension is empty. -/
def splitextExt (p : List Char) : List Char :=
  let sepIndex : Int := match rfind '/' p with | none => -1 | some i => (i : Int)
  let dotIndex : Int := match rfind '.' p with | none => -1 | some i => (i : Int)
  if sepIndex < dotIndex then
    if ((p.drop (sepIndex + 1).toNat).take (dotIndex - sepIndex - 1).toNat).all (fun c => c = '.') then
      []
    else
      p.drop dotIndex.toNat
  else []

/-- Modelled from the spec's words, for comparison with `splitextExt`:
"compute the final path segment's extension (substring from the last `.`
to end, including the dot)". -/
def specExt (p : List Char) : List Char :=
  match rfind '.' p with
  | none => []
  | some i => p.drop i

/-! ## ContentFetcher data model (`fetch_files` / `fetch_recursive`,
`main.py` lines 32-107)

A repository tree is embedded together with the transport outcomes the
code would observe at each locator: a directory node carries the result
of the `GET` on its listing URL (failure, a single collapsed file
object, or an item array), and a file node carries the outcome of
resolving its content locator.  A sibling list is embedded as a chained
forest so that all recursion is structural. -/

/-- An HTTP response as seen by `requests`: status code and body text. -/
structure Response where
  status : Nat
  text : String
deriving DecidableEq, Repr

/-- Outcome of `requests.get(item['download_url'])` (line 83): either a
`RequestException` was raised, or a `Response` came back (its status is
never inspected there - no `raise_for_status` on this call). -/
inductive DownloadOutcome where
  | fails
  | succeeds (resp : Response)
deriving DecidableEq, Repr

/-- The content locator of a file item (lines 81-89): a `download_url`
key, else an inline `content` key, else nothing.  The inline payload is
carried here as the text the source obtains by
`base64.b64decode(item['content']).decode('utf-8')`; that decoding pair
is modelled separately by `b64decodeList`/`b64encodeList` below
(ill-formed payloads raise errors outside `requests.exceptions.
RequestException` and are outside every claim). -/
inductive ContentLocator where
  | viaDownload (o : DownloadOutcome)
  | inlineContent (s : String)
  | absent
deriving DecidableEq, Repr

/-- The fields of a descriptor with `type == 'file'` that the fetcher
reads: `name`, `path`, and its content locator. -/
structure FileNode where
  name : String
  path : String
  locator : ContentLocator
deriving DecidableEq, Repr

/-- One resolved file: the dict `{'name', 'path', 'content'}` appended at
`main.py` lines 91-95. -/
structure FileRecord where
  name : String
  path : String
  content : String
deriving DecidableEq, Repr

/-- A directory listing's item array, chained sibling-by-sibling.  A
`dir` item carries the outcome of the `GET` on its `url`: `dirFail`
(transport failure or `raise_for_status`), `dirSingle` (the API
collapsed the listing to one bare file object, normalized at lines
69-70), or `dirOk` with the item array.  `otherN` is an item whose
`type` is neither `'file'` nor `'dir'` (both branches skip it). -/
inductive Forest where
  | nil
  | fileN (f : FileNode) (rest : Forest)
  | dirOk (name path : String) (children : Forest) (rest : Forest)
  | dirSingle (name path : String) (f : FileNode) (rest : Forest)
  | dirFail (name path : String) (rest : Forest)
  | otherN (typ name path : String) (rest : Forest)
deriving DecidableEq, Repr

/-- Outcome of the root `GET` performed by `fetch_recursive(repo_path)`. -/
inductive RootListing where
  | fails
  | single (f : FileNode)
  | items (ns : Forest)
deriving DecidableEq, Repr

/-- The filter test at lines 75-78: `if file_extensions:` is Python
truthiness, so `None` and the empty list both disable filtering;
otherwise the entry passes iff `os.path.splitext(name)[1]` is a member
of the list (exact, case-sensitive string equality). -/
def passesFilter (exts : Option (List String)) (name : String) : Bool :=
  match exts with
  | none => true
  | some l => if l.isEmpty then true else l.contains (String.mk (splitextExt name.toList))

/-- Content resolution for one file item (lines 80-89).  `none` models a
`RequestException` raised by the `download_url` GET, which escapes to
the `except` clause of the activation iterating the current listing. -/
def resolveContent : ContentLocator → Option String
  | .viaDownload .fails => none
  | .viaDownload (.succeeds r) => some r.text
  | .inlineContent s => some s
  | .absent => some ""

/-- Fetching a listing that consists of a single file object (the
normalized `[data]` of lines 69-70 with one element, in its own
`fetch_recursive` activation): a content failure is caught there and
yields no record. -/
def fetchSingle (exts : Option (List String)) (f : FileNode) : List FileRecord :=
  if passesFilter exts f.name then
    match resolveContent f.locator with
    | none => []
    | some c => [⟨f.name, f.path, c⟩]
  else []

/-- The item loop of `fetch_recursive` over one listing's item array
(lines 72-99).  The `try` block encloses the whole loop, so a
`RequestException` from a file's content GET jumps to this activation's
`except`, discarding the remaining items of this listing (records
already appended to the shared `files` list persist).  A `dir` item
recurses in a fresh activation with its own handler, so nothing
propagates out of it. -/
def fetchItems (exts : Option (List String)) : Forest → List FileRecord
  | .nil => []
  | .fileN f rest =>
    if passesFilter exts f.name then
      match resolveContent f.locator with
      | none => []
      | some c => ⟨f.name, f.path, c⟩ :: fetchItems exts rest
    else fetchItems exts rest
  | .dirOk _ _ children rest => fetchItems exts children ++ fetchItems exts rest
  | .dirSingle _ _ f rest => fetchSingle exts f ++ fetchItems exts rest
  | .dirFail _ _ rest => fetchItems exts rest
  | .otherN _ _ _ rest => fetchItems exts rest

/-- Model of `fetch_files(repo_path, file_extensions)` (lines 32-107): run
`fetch_recursive` on the root locator and return the accumulated
records.  A root failure is caught and yields the empty list. -/
def fetch_files (root : RootListing) (exts : Option (List String)) : List FileRecord :=
  match root with
  | .fails => []
  | .single f => fetchSingle exts f
  | .items ns => fetchItems exts ns






/-! ## Spec-side description of the fetch result (for the refinement
claim about `fetch_files`)

`specLeaves` is written from the spec's words: "the set of FileRecords
produced equals the set of file-type leaves of T whose extension (when
a filter is given) is in the filter set", "traversal order is
depth-first pre-order: siblings are visited in listing order, and a
directory's descendants are fully visited before the next sibling".
The filter predicate is a parameter, so this definition is independent
of how the extension test itself is computed. -/

/-- Whether a locator resolves without a transport failure. -/
def locatorOk : ContentLocator → Bool
  | .viaDownload .fails => false
  | _ => true

/-- Whether a forest contains no transport failure at any locator. -/
def forestOk : Forest → Bool
  | .nil => true
  | .fileN f rest => locatorOk f.locator && forestOk rest
  | .dirOk _ _ children rest => forestOk children && forestOk rest
  | .dirSingle _ _ f rest => locatorOk f.locator && forestOk rest
  | .dirFail _ _ _ => false
  | .otherN _ _ _ rest => forestOk rest

/-- Whether a whole tree (root listing included) is failure-free. -/
def rootOk : RootListing → Bool
  | .fails => false
  | .single f => locatorOk f.locator
  | .items ns => forestOk ns

/-- Modelled from the spec: content of a file leaf - "prefer a
direct-download URL when present (fetch as UTF-8 text); otherwise
decode an inline base64 payload as UTF-8; otherwise treat content as
empty". Total because it is only compared with the fetcher on
failure-free trees. -/
def specResolve : ContentLocator → String
  | .viaDownload (.succeeds r) => r.text
  | .viaDownload .fails => ""
  | .inlineContent s => s
  | .absent => ""

/-- Modelled from the spec: the file-type leaves of a forest passing the
filter predicate `pass`, in depth-first pre-order. -/
def specLeaves (pass : String → Bool) : Forest → List FileRecord
  | .nil => []
  | .fileN f rest =>
    (if pass f.name then [⟨f.name, f.path, specResolve f.locator⟩] else []) ++ specLeaves pass rest
  | .dirOk _ _ children rest => specLeaves pass children ++ specLeaves pass rest
  | .dirSingle _ _ f rest =>
    (if pass f.name then [⟨f.name, f.path, specResolve f.locator⟩] else []) ++ specLeaves pass rest
  | .dirFail _ _ rest => specLeaves pass rest
  | .otherN _ _ _ rest => specLeaves pass rest

/-- Modelled from the spec: the file-type leaves of a whole tree. -/
def specLeavesRoot (pass : String → Bool) : RootListing → List FileRecord
  | .fails => []
  | .single f => if pass f.name then [⟨f.name, f.path, specResolve f.locator⟩] else []
  | .items ns => specLeaves pass ns

/-! ## SummarizationEngine and AggregationEngine (`summarize_file`,
`generate_repo_summary`, `main.py` lines 110-210)

The LLM backend (`chain.invoke` through LangChain) is embedded as a
function `String → Option String` from the rendered prompt to the
returned text; `none` models a raised exception.  `OllamaLLM` returns a
plain string, so the `hasattr(result, 'content')` unwrap branch is the
identity here. -/

/-- The rendered per-file prompt of `summary_prompt.format(filename=...,
code=...)` (lines 128-143): the template text with the two variables
substituted. -/
def summary_prompt (filename code : String) : String :=
  "\nYou are a senior software engineer. Summarize what the file `" ++ filename ++
  "` does.\n\nExplain its main functions, logic, and purpose in clear language.\n\nCode:\n\n```python\n"
  ++ code ++ "\n```\n\nProvide a concise but comprehensive summary.\n"

/-- Model of `summarize_file(filename, code, llm)` (lines 110-156): one backend
call on the rendered prompt; the result is propagated unchanged. -/
def summarize_file (llm : String → Option String) (filename code : String) : Option String :=
  llm (summary_prompt filename code)

/-- One per-file summary dict `{'filename', 'path', 'summary'}`
(lines 331-335). -/
structure FileSummary where
  filename : String
  path : String
  summary : String
deriving DecidableEq, Repr

/-- The `file_summaries_text` block (lines 177-180): each summary prefixed by its
filename in bold, joined with blank lines, in input order. -/
def file_summaries_text (summaries : List FileSummary) : String :=
  String.intercalate "\n\n" (summaries.map (fun s => "**" ++ s.filename ++ "**\n" ++ s.summary))

/-- The rendered merge prompt of `merge_prompt.format(file_summaries=...)`
(lines 183-199). -/
def merge_prompt (fst : String) : String :=
  "\nYou are an AI technical writer. Combine these file summaries into a single, high-level explanation\nof what the entire repository does, how its components fit together, and what could be improved.\n\nSummaries:\n\n"
  ++ fst ++
  "\n\nProvide a well-structured summary that includes:\n1. Overall purpose of the repository\n2. Architecture and how components interact\n3. Key technologies and patterns used\n4. Potential improvements or areas of concern\n"

/-- Model of `generate_repo_summary(summaries, llm)` (lines 159-210): format the
summaries, render the merge prompt, and make the single backend call -
unconditionally, also over an empty summary list. -/
def generate_repo_summary (llm : String → Option String) (summaries : List FileSummary) :
    Option String :=
  llm (merge_prompt (file_summaries_text summaries))

/-! ## main's orchestration (`main.py` lines 267-396) -/

/-- The step-3 loop of `main` (lines 326-339): summarize each fetched
file; on an exception (`none`) print an error and `continue`, so the
file contributes no `FileSummary`. -/
def summarizeStage (llm : String → Option String) : List FileRecord → List FileSummary
  | [] => []
  | f :: rest =>
    match summarize_file llm f.name f.content with
    | some s => ⟨f.name, f.path, s⟩ :: summarizeStage llm rest
    | none => summarizeStage llm rest

/-- The `REPO_OWNER` constant (line 280). -/
def REPO_OWNER : String := "sanjaynela"

/-- The `REPO_NAME` constant (line 281). -/
def REPO_NAME : String := "personalRepoNextJs"

/-- The `output_content` string assembled at lines 354-374: the f-string
header (title, attribution, separator, overall summary, separator,
breakdown heading) followed by, for each summary in production order, a
filename heading, the summary body, and a trailing separator. -/
def assembleDocument (repo_summary : String) (summaries : List FileSummary) : String :=
  "# Repository Summary: " ++ REPO_OWNER ++ "/" ++ REPO_NAME ++
  "\n\nGenerated by AI Code Explainer using LangChain and Ollama\n\n---\n\n## Overall Summary\n\n"
  ++ repo_summary ++ "\n\n---\n\n## File-by-File Breakdown\n\n" ++
  String.join (summaries.map
    (fun s => "### " ++ s.filename ++ "\n\n" ++ s.summary ++ "\n\n---\n\n"))

/-! ## base64 (`base64.b64decode` at line 87, `base64.b64encode` at
line 229)

Bytes are `Nat`s below 256.  `b64decodeList` is faithful to Python's
decoder on inputs made of alphabet characters with canonical trailing
padding (Python additionally discards foreign characters before
decoding, which cannot occur in an encoder-produced payload). -/

/-- The standard base64 alphabet, index order. -/
def b64alphabet : List Char :=
  "ABCDEFGHIJKLMNOPQRSTUVWXYZabcdefghijklmnopqrstuvwxyz0123456789+/".toList

/-- Character for a sextet (only used for values below 64). -/
def b64char (n : Nat) : Char :=
  b64alphabet.getD n '='

/-- Sextet value of a character, `none` for a non-alphabet character. -/
def b64val (c : Char) : Option Nat :=
  b64alphabet.findIdx? (fun x => x = c)

/-- Model of `base64.b64encode` on a byte list: three bytes become four alphabet
characters; a final group of one or two bytes is padded with `=`. -/
def b64encodeList : List Nat → List Char
  | [] => []
  | [a] => [b64char (a / 4), b64char (a % 4 * 16), '=', '=']
  | [a, b] => [b64char (a / 4), b64char (a % 4 * 16 + b / 16), b64char (b % 16 * 4), '=']
  | a :: b :: c :: rest =>
    b64char (a / 4) :: b64char (a % 4 * 16 + b / 16) :: b64char (b % 16 * 4 + c / 64) ::
      b64char (c % 64) :: b64encodeList rest

/-- Model of `base64.b64decode` on a character list: groups of four characters
yield three bytes, with `=` padding allowed only in a final group;
`none` models the `binascii.Error` Python raises on malformed input. -/
def b64decodeList : List Char → Option (List Nat)
  | [] => some []
  | c1 :: c2 :: c3 :: c4 :: rest =>
    match b64val c1, b64val c2 with
    | some s1, some s2 =>
      if c3 = '=' then
        if c4 = '=' ∧ rest = [] then some [s1 * 4 + s2 / 16] else none
      else
        match b64val c3 with
        | some s3 =>
          if c4 = '=' then
            if rest = [] then some [s1 * 4 + s2 / 16, s2 % 16 * 16 + s3 / 4] else none
          else
            match b64val c4 with
            | some s4 =>
              match b64decodeList rest with
              | some tail =>
                some ((s1 * 4 + s2 / 16) :: (s2 % 16 * 16 + s3 / 4) :: (s3 % 4 * 64 + s4) :: tail)
              | none => none
            | none => none
        | none => none
    | _, _ => none
  | _ => none



/-- UTF-8 encoding of one scalar value, byte by byte (models Python's
`str.encode('utf-8')` character-wise). -/
def utf8EncodeChar (c : Char) : List Nat :=
  let n := c.toNat
  if n < 128 then [n]
  else if n < 2048 then [192 + n / 64, 128 + n % 64]
  else if n < 65536 then [224 + n / 4096, 128 + n / 64 % 64, 128 + n % 64]
  else [240 + n / 262144, 128 + n / 4096 % 64, 128 + n / 64 % 64, 128 + n % 64]

/-- Bytes of `s.encode('utf-8')` as a list. -/
def strBytes (s : String) : List Nat :=
  s.data.flatMap utf8EncodeChar

/-- Line 230: `base64.b64encode(summary_text.encode('utf-8')).decode('utf-8')`. -/
def b64encodeOfString (s : String) : String :=
  String.mk (b64encodeList (strBytes s))

/-! ## PublisherAdapter (`push_summary_to_github`, `main.py` lines
213-264)

The remote host is embedded as the outcome of the preliminary GET
(`none` = `RequestException`, otherwise status plus the optional `sha`
field of the JSON body) and a function from the PUT body to the PUT
outcome (`none` = transport-level `RequestException`, otherwise the
response status).  The function's `except` clause catches only
`requests.exceptions.RequestException`, so `existing_file["sha"]` on a
200 body without that key raises `KeyError` past the boundary; that
outcome is a distinguished result of the model. -/

/-- Outcome of the GET at line 249, when no exception is raised. -/
structure GetResp where
  status : Nat
  shaField : Option String
deriving DecidableEq, Repr

/-- The JSON body of the PUT at line 256: `data` as built at lines
236-240 plus the conditional `sha` of line 253. -/
structure PutBody where
  message : String
  content : String
  branch : String
  sha : Option String
deriving DecidableEq, Repr

/-- The remote host's behavior during one publish call. -/
structure PubEnv where
  getResult : Option GetResp
  putResult : PutBody → Option Nat

/-- How `push_summary_to_github` terminates: a returned boolean, or an
uncaught `KeyError` from `existing_file["sha"]`. -/
inductive PushOutcome where
  | returns (b : Bool)
  | raisesKeyError
deriving DecidableEq, Repr

/-- Network events of one publish call, in order. -/
inductive PubEvent where
  | getEv
  | putEv
deriving DecidableEq, Repr

/-- Observable result of one publish call: termination outcome, the PUT
body if a PUT was issued, and the event order. -/
structure PushResult where
  outcome : PushOutcome
  putBody : Option PutBody
  trace : List PubEvent
deriving DecidableEq, Repr

/-- The PUT of lines 256-257: `response.raise_for_status()` raises (and
the `except` returns `False`) exactly for statuses in 400-599; any
other status - not only 2xx - reaches the `return True`. -/
def pushPut (env : PubEnv) (body : PutBody) : PushResult :=
  match env.putResult body with
  | none => ⟨.returns false, some body, [.getEv, .putEv]⟩
  | some st =>
    if 400 ≤ st ∧ st < 600 then ⟨.returns false, some body, [.getEv, .putEv]⟩
    else ⟨.returns true, some body, [.getEv, .putEv]⟩

/-- Model of `push_summary_to_github(repo, summary_text, token)` (lines 213-264):
encode the document, GET the target path, on a 200 copy the body's
`sha` into the PUT payload (a missing `sha` key raises `KeyError`),
then PUT. -/
def push_summary_to_github (env : PubEnv) (summary_text : String) : PushResult :=
  let base : PutBody := ⟨"Add AI-generated summary", b64encodeOfString summary_text, "main", none⟩
  match env.getResult with
  | none => ⟨.returns false, none, [.getEv]⟩
  | some g =>
    if g.status = 200 then
      match g.shaField with
      | none => ⟨.raisesKeyError, none, [.getEv]⟩
      | some s => pushPut env ⟨base.message, base.content, base.branch, some s⟩
    else pushPut env base

/-! ## mainRun: `main()` (`main.py` lines 267-396)

The compile-time configuration constants of `main` (root repository,
`FILE_EXTENSIONS`, `PUSH_TO_GITHUB`, `GITHUB_TOKEN`) and the external
collaborators (transport, LLM) are the fields of `MainEnv`.  `main`'s
observable behavior is returned as a `RunOutput`: which exit path was
taken, the argument of every `generate_repo_summary` call, the
assembled document, the text written to `SUMMARY.md`, and the publish
result. -/

/-- The environment and configuration of one `main()` run. -/
structure MainEnv where
  root : RootListing
  file_extensions : Option (List String)
  llmOk : Bool
  llm : String → Option String
  pushEnabled : Bool
  token : Option String
  pushEnv : PubEnv

/-- Which exit path `main` took. -/
inductive RunResult where
  | noFiles
  | llmInitFailed
  | aggregationFailed
  | finished
deriving DecidableEq, Repr

/-- Observable effects of one `main()` run. -/
structure RunOutput where
  result : RunResult
  aggCalls : List (List FileSummary)
  document : Option String
  written : Option String
  pushResult : Option PushResult

/-- Model of `main()` (lines 267-396): fetch; return early when no files (line
307) or when LLM init fails (line 318); summarize each file with
per-file failure isolation; call `generate_repo_summary` once and
return on its failure (lines 345-350) before any assembly or write;
otherwise assemble `output_content`, write it to `SUMMARY.md`, and
optionally push (skipped with a warning when the token is missing). -/
def mainRun (env : MainEnv) : RunOutput :=
  let repo_files := fetch_files env.root env.file_extensions
  if repo_files.isEmpty then ⟨.noFiles, [], none, none, none⟩
  else if env.llmOk = false then ⟨.llmInitFailed, [], none, none, none⟩
  else
    let summaries := summarizeStage env.llm repo_files
    match generate_repo_summary env.llm summaries with
    | none => ⟨.aggregationFailed, [summaries], none, none, none⟩
    | some repo_summary =>
      let doc := assembleDocument repo_summary summaries
      let push :=
        if env.pushEnabled then
          match env.token with
          | none => none
          | some _ => some (push_summary_to_github env.pushEnv doc)
        else none
      ⟨.finished, [summaries], some doc, some doc, push⟩

/-! ## Theorems -/

/-- A failure-free locator resolves to exactly the spec-side content. -/
theorem resolveContent_of_ok (l : ContentLocator) (h : locatorOk l = true) :
    resolveContent l = some (specResolve l) := by
  cases l with
  | viaDownload o => cases o with
    | fails => simp [locatorOk] at h
    | succeeds r => rfl
  | inlineContent s => rfl
  | absent => rfl

/-- On a failure-free forest the fetch loop produces exactly the
spec-side depth-first pre-order leaf list. -/
theorem fetchItems_eq_specLeaves (exts : Option (List String)) (t : Forest)
    (h : forestOk t = true) :
    fetchItems exts t = specLeaves (passesFilter exts) t := by
  induction t with
  | nil => rfl
  | fileN f rest ih =>
    simp only [forestOk, Bool.and_eq_true] at h
    simp only [fetchItems, specLeaves, resolveContent_of_ok f.locator h.1, ih h.2]
    split <;> simp
  | dirOk n p children rest ih1 ih2 =>
    simp only [forestOk, Bool.and_eq_true] at h
    simp only [fetchItems, specLeaves, ih1 h.1, ih2 h.2]
  | dirSingle n p f rest ih =>
    simp only [forestOk, Bool.and_eq_true] at h
    simp only [fetchItems, specLeaves, fetchSingle, resolveContent_of_ok f.locator h.1, ih h.2]
  | dirFail n p rest ih => simp [forestOk] at h
  | otherN t n p rest ih => simpa [fetchItems, specLeaves] using ih (by simpa [forestOk] using h)

/-- C2: on every finite acyclic repository tree whose locators all
resolve, `fetch_files` returns exactly the file-type leaves that pass
the extension filter, resolved to their content, in depth-first
pre-order (siblings in listing order, every directory's descendants
before that directory's next sibling), independent of nesting depth -
`specLeaves` is written from the spec's words and recursion makes no
depth restriction. -/
theorem c2_fetch_files_matches_spec_leaves (root : RootListing) (exts : Option (List String))
    (h : rootOk root = true) :
    fetch_files root exts = specLeavesRoot (passesFilter exts) root := by
  cases root with
  | fails => simp [rootOk] at h
  | single f =>
    simp only [rootOk] at h
    simp only [fetch_files, specLeavesRoot, fetchSingle, resolveContent_of_ok f.locator h]
  | items ns => exact fetchItems_eq_specLeaves exts ns h

/-- The two-file, one-directory scenario of spec section 8: `a.py` at
the root, `dir/b.py` below, filter `['.py']`; the fetch equals the
spec-side leaf list, which is `[a.py, dir/b.py]` in that order. -/
theorem c2_fetch_files_matches_spec_leaves_witness :
    rootOk (.items (.fileN ⟨"a.py", "a.py", .inlineContent "A"⟩
      (.dirOk "dir" "dir" (.fileN ⟨"b.py", "dir/b.py", .inlineContent "B"⟩ .nil) .nil))) = true ∧
    fetch_files (.items (.fileN ⟨"a.py", "a.py", .inlineContent "A"⟩
      (.dirOk "dir" "dir" (.fileN ⟨"b.py", "dir/b.py", .inlineContent "B"⟩ .nil) .nil)))
      (some [".py"]) =
    specLeavesRoot (passesFilter (some [".py"]))
      (.items (.fileN ⟨"a.py", "a.py", .inlineContent "A"⟩
        (.dirOk "dir" "dir" (.fileN ⟨"b.py", "dir/b.py", .inlineContent "B"⟩ .nil) .nil))) ∧
    specLeavesRoot (passesFilter (some [".py"]))
      (.items (.fileN ⟨"a.py", "a.py", .inlineContent "A"⟩
        (.dirOk "dir" "dir" (.fileN ⟨"b.py", "dir/b.py", .inlineContent "B"⟩ .nil) .nil))) =
      [⟨"a.py", "a.py", "A"⟩, ⟨"b.py", "dir/b.py", "B"⟩] :=
  ⟨by decide,
   c2_fetch_files_matches_spec_leaves _ (some [".py"]) (by decide),
   by decide⟩

/-- C1 as stated is false: a transport failure while downloading the
content of `a.py` is caught only by the handler of the activation
iterating the whole listing, so the later sibling `b.py` - which alone
yields a record - contributes nothing. -/
theorem c1_counterexample :
    fetch_files (.items (.fileN ⟨"a.py", "a.py", .viaDownload .fails⟩
      (.fileN ⟨"b.py", "b.py", .viaDownload (.succeeds ⟨200, "print(1)"⟩)⟩ .nil))) none = [] ∧
    fetch_files (.items (.fileN ⟨"b.py", "b.py", .viaDownload (.succeeds ⟨200, "print(1)"⟩)⟩ .nil))
      none = [⟨"b.py", "b.py", "print(1)"⟩] := by
  constructor <;> rfl

/-- C1 amended: failure isolation is per directory listing, not per
locator.  A directory whose listing GET fails contributes no records
and its siblings continue; a directory's subtree is processed in its
own handler, so whatever fails inside it never truncates the entries
after that directory; but a transport failure while downloading one
file's content aborts the remaining entries of that same listing. -/
theorem c1_amended_failure_scope (exts : Option (List String)) (n p : String)
    (sub rest : Forest) (f : FileNode) :
    fetchItems exts (.dirFail n p rest) = fetchItems exts rest ∧
    fetchItems exts (.dirOk n p sub rest) = fetchItems exts sub ++ fetchItems exts rest ∧
    (passesFilter exts f.name = true → f.locator = .viaDownload .fails →
      fetchItems exts (.fileN f rest) = []) := by
  refine ⟨rfl, rfl, fun hp hl => ?_⟩
  simp [fetchItems, hp, hl, resolveContent]

/-- Concrete instance of the amended C1: a failing directory between two
healthy files loses only its own subtree, while a failing file download
truncates the rest of its listing. -/
theorem c1_amended_failure_scope_witness :
    fetchItems none (.dirFail "d" "d" (.fileN ⟨"b.py", "b.py", .inlineContent "B"⟩ .nil)) =
      fetchItems none (.fileN ⟨"b.py", "b.py", .inlineContent "B"⟩ .nil) ∧
    fetchItems none (.dirOk "d" "d" (.fileN ⟨"a.py", "a.py", .viaDownload .fails⟩ .nil)
        (.fileN ⟨"b.py", "b.py", .inlineContent "B"⟩ .nil)) =
      fetchItems none (.fileN ⟨"a.py", "a.py", .viaDownload .fails⟩ .nil) ++
        fetchItems none (.fileN ⟨"b.py", "b.py", .inlineContent "B"⟩ .nil) ∧
    fetchItems none (.fileN ⟨"a.py", "a.py", .viaDownload .fails⟩
      (.fileN ⟨"b.py", "b.py", .inlineContent "B"⟩ .nil)) = [] :=
  ⟨(c1_amended_failure_scope none "d" "d" .nil
      (.fileN ⟨"b.py", "b.py", .inlineContent "B"⟩ .nil) ⟨"a.py", "a.py", .viaDownload .fails⟩).1,
   (c1_amended_failure_scope none "d" "d" (.fileN ⟨"a.py", "a.py", .viaDownload .fails⟩ .nil)
      (.fileN ⟨"b.py", "b.py", .inlineContent "B"⟩ .nil) ⟨"a.py", "a.py", .viaDownload .fails⟩).2.1,
   (c1_amended_failure_scope none "d" "d" .nil
      (.fileN ⟨"b.py", "b.py", .inlineContent "B"⟩ .nil)
      ⟨"a.py", "a.py", .viaDownload .fails⟩).2.2 (by decide) rfl⟩

/-- C10: when a file descriptor carries a direct-download URL and the
GET returns a response, the response's body text becomes the record's
content whatever the status code `st` is - the file is neither skipped
nor does it abort the listing, and the following siblings are still
processed (there is no `raise_for_status` on the content GET). -/
theorem c10_download_body_kept_regardless_of_status (name path : String) (st : Nat)
    (body : String) (rest : Forest) :
    fetchItems none (.fileN ⟨name, path, .viaDownload (.succeeds ⟨st, body⟩)⟩ rest) =
      ⟨name, path, body⟩ :: fetchItems none rest := by
  simp [fetchItems, passesFilter, resolveContent]

/-- A character absent from a list is never found by `rfindAux`. -/
theorem rfindAux_eq_none (c : Char) (l : List Char) (k : Nat) (h : c ∉ l) :
    rfindAux c l k = none := by
  induction l generalizing k with
  | nil => rfl
  | cons x xs ih =>
    simp only [List.mem_cons, not_or] at h
    simp only [rfindAux, ih (k + 1) h.2]
    exact if_neg (fun hx => h.1 hx.symm)

/-- C4 as stated is false: for the name `.bashrc`, whose only dot is its
leading character, the spec's extension rule gives the whole name, so
with filter `['.bashrc']` the claim demands a FileRecord - but the code
computes the extension with `os.path.splitext`, which returns the empty
extension for such names, and the file is skipped. -/
theorem c4_counterexample :
    fetch_files (.single ⟨".bashrc", ".bashrc", .inlineContent "x"⟩) (some [".bashrc"]) = [] ∧
    String.mk (specExt ".bashrc".toList) = ".bashrc" ∧
    fetch_files (.single ⟨".bashrc", ".bashrc", .inlineContent "x"⟩) (some [""]) =
      [⟨".bashrc", ".bashrc", "x"⟩] := by
  refine ⟨rfl, rfl, rfl⟩

/-- C4 amended: with a non-empty extension filter, a file descriptor
yields a FileRecord iff `os.path.splitext`'s extension of its name is a
member of the filter list (exact, case-sensitive).  That extension is
the substring from the last `.` to the end - as the claim says -
whenever some character of the final path segment before that last dot
is not itself a dot; when every such character is a dot (e.g. a leading
dot name like `.bashrc`) the computed extension is empty instead of the
whole name. -/
theorem c4_amended_splitext_filter (f : FileNode) (exts : List String)
    (hne : exts ≠ []) (hok : locatorOk f.locator = true) :
    (fetch_files (.single f) (some exts) =
      if exts.contains (String.mk (splitextExt f.name.toList)) then
        [⟨f.name, f.path, specResolve f.locator⟩] else []) ∧
    ∀ (p : List Char) (i : Nat), rfind '.' p = some i → '/' ∉ p →
      (((p.take i).all (fun c => c = '.') = true → splitextExt p = []) ∧
       ((p.take i).all (fun c => c = '.') = false →
         splitextExt p = p.drop i ∧ specExt p = p.drop i)) := by
  constructor
  · have hE : exts.isEmpty = false := by cases exts with
      | nil => exact absurd rfl hne
      | cons a l => rfl
    simp only [fetch_files, fetchSingle, passesFilter, hE, Bool.false_eq_true, if_false,
      resolveContent_of_ok f.locator hok]
  · intro p i hdot hsep
    have h1 : rfind '/' p = none := rfindAux_eq_none '/' p 0 hsep
    have hA : ((-1 : Int) + 1).toNat = 0 := rfl
    have hB : ((i : Int) - (-1) - 1).toNat = i := by omega
    have hC : ((i : Int)).toNat = i := by omega
    constructor
    · intro hall
      simp only [splitextExt, h1, hdot, hA, hB, hC]
      rw [if_pos (by omega), if_pos (by simpa using hall)]
    · intro hnotall
      refine ⟨?_, by simp [specExt, hdot]⟩
      simp only [splitextExt, h1, hdot, hA, hB, hC]
      rw [if_pos (by omega), if_neg (by simp [hnotall])]

/-- Concrete instance of the amended C4: `a.py` passes the filter
`['.py']` and its computed extension agrees with the last-dot rule. -/
theorem c4_amended_splitext_filter_witness :
    fetch_files (.single ⟨"a.py", "a.py", .inlineContent "x"⟩) (some [".py"]) =
      [⟨"a.py", "a.py", "x"⟩] ∧
    splitextExt "a.py".toList = ".py".toList ∧ specExt "a.py".toList = ".py".toList := by
  have h := c4_amended_splitext_filter ⟨"a.py", "a.py", .inlineContent "x"⟩ [".py"]
    (by decide) (by decide)
  refine ⟨by rw [h.1]; rfl,
    ((h.2 "a.py".toList 1 (by decide) (by decide)).2 (by decide)).1,
    ((h.2 "a.py".toList 1 (by decide) (by decide)).2 (by decide)).2⟩

/-- Every sextet below 64 maps to its alphabet character and back. -/
theorem b64val_b64char : ∀ n < 64, b64val (b64char n) = some n := by decide

/-- No alphabet character of a sextet below 64 is the padding sign. -/
theorem b64char_ne_pad : ∀ n < 64, b64char n ≠ '=' := by decide

/-- Decoding is a left inverse of encoding on byte lists. -/
theorem b64_decode_encode (l : List Nat) (h : ∀ x ∈ l, x < 256) :
    b64decodeList (b64encodeList l) = some l := by
  match l with
  | [] => rfl
  | [a] =>
    have ha : a < 256 := h a (by simp)
    simp only [b64encodeList, b64decodeList,
      b64val_b64char (a / 4) (by omega), b64val_b64char (a % 4 * 16) (by omega)]
    simp
    omega
  | [a, b] =>
    have ha : a < 256 := h a (by simp)
    have hb : b < 256 := h b (by simp)
    simp only [b64encodeList, b64decodeList,
      b64val_b64char (a / 4) (by omega), b64val_b64char (a % 4 * 16 + b / 16) (by omega),
      b64val_b64char (b % 16 * 4) (by omega)]
    rw [if_neg (b64char_ne_pad (b % 16 * 4) (by omega))]
    simp
    omega
  | [a, b, c] =>
    have ha : a < 256 := h a (by simp)
    have hb : b < 256 := h b (by simp)
    have hc : c < 256 := h c (by simp)
    simp only [b64encodeList, b64decodeList,
      b64val_b64char (a / 4) (by omega), b64val_b64char (a % 4 * 16 + b / 16) (by omega),
      b64val_b64char (b % 16 * 4 + c / 64) (by omega), b64val_b64char (c % 64) (by omega)]
    rw [if_neg (b64char_ne_pad (b % 16 * 4 + c / 64) (by omega)),
      if_neg (b64char_ne_pad (c % 64) (by omega))]
    simp
    omega
  | a :: b :: c :: d :: rest =>
    have ha : a < 256 := h a (by simp)
    have hb : b < 256 := h b (by simp)
    have hc : c < 256 := h c (by simp)
    have ih : b64decodeList (b64encodeList (d :: rest)) = some (d :: rest) :=
      b64_decode_encode (d :: rest) (fun x hx => h x (by simp [hx]))
    simp only [b64encodeList, b64decodeList,
      b64val_b64char (a / 4) (by omega), b64val_b64char (a % 4 * 16 + b / 16) (by omega),
      b64val_b64char (b % 16 * 4 + c / 64) (by omega), b64val_b64char (c % 64) (by omega)]
    rw [if_neg (b64char_ne_pad (b % 16 * 4 + c / 64) (by omega)),
      if_neg (b64char_ne_pad (c % 64) (by omega))]
    simp [ih]
    omega
termination_by l.length

/-- C9: a base64 payload that is the encoding of some byte content - in
particular of any UTF-8-representable content, whose byte encoding is
such a list - decodes back to exactly that content, and re-encoding the
decoded content reproduces the original encoded string exactly. -/
theorem c9_base64_roundtrip (bs : List Nat) (p : List Char)
    (hbytes : ∀ x ∈ bs, x < 256) (hp : p = b64encodeList bs) :
    b64decodeList p = some bs ∧ b64encodeList ((b64decodeList p).getD []) = p := by
  subst hp
  refine ⟨b64_decode_encode bs hbytes, ?_⟩
  rw [b64_decode_encode bs hbytes]
  rfl

/-- Concrete instance of C9 on the UTF-8 bytes of `"hey"`. -/
theorem c9_base64_roundtrip_witness :
    b64decodeList (b64encodeList [104, 101, 121]) = some [104, 101, 121] ∧
    b64encodeList ((b64decodeList (b64encodeList [104, 101, 121])).getD []) =
      b64encodeList [104, 101, 121] :=
  c9_base64_roundtrip [104, 101, 121] (b64encodeList [104, 101, 121]) (by decide) rfl

/-- Out-of-range default used to state index hypotheses with `getD`. -/
def defaultRecord : FileRecord := ⟨"", "", ""⟩

/-- When every file's backend call succeeds, the summarization loop is a
map over the fetched records, in order. -/
theorem summarizeStage_all_some (llm : String → Option String) (l : List FileRecord)
    (h : ∀ f ∈ l, (summarize_file llm f.name f.content).isSome = true) :
    summarizeStage llm l =
      l.map (fun f => ⟨f.name, f.path, (summarize_file llm f.name f.content).getD ""⟩) := by
  induction l with
  | nil => rfl
  | cons f rest ih =>
    obtain ⟨s, hs⟩ := Option.isSome_iff_exists.mp (h f (by simp))
    simp only [summarizeStage, hs, List.map_cons]
    rw [ih (fun g hg => h g (by simp [hg]))]
    simp [hs]

/-- If the backend fails on exactly the record at index `i`, the
summarization loop returns the in-order summaries of the other records. -/
theorem summarizeStage_erase_of_fail (llm : String → Option String) (files : List FileRecord)
    (i : Nat) (hi : i < files.length)
    (hfail : summarize_file llm (files.getD i defaultRecord).name
      (files.getD i defaultRecord).content = none)
    (hrest : ∀ j, j < files.length → j ≠ i →
      (summarize_file llm (files.getD j defaultRecord).name
        (files.getD j defaultRecord).content).isSome = true) :
    summarizeStage llm files =
      (files.eraseIdx i).map
        (fun f => ⟨f.name, f.path, (summarize_file llm f.name f.content).getD ""⟩) := by
  induction files generalizing i with
  | nil => simp at hi
  | cons f rest ih =>
    cases i with
    | zero =>
      have h0 : summarize_file llm f.name f.content = none := by
        simpa using hfail
      simp only [summarizeStage, h0, List.eraseIdx_cons_zero]
      apply summarizeStage_all_some
      intro g hg
      obtain ⟨j, hj, hg⟩ := List.mem_iff_getElem.mp hg
      have hr := hrest (j + 1) (by simpa using Nat.succ_lt_succ hj) (Nat.succ_ne_zero j)
      rw [List.getD_cons_succ, List.getD_eq_getElem rest defaultRecord hj, hg] at hr
      exact hr
    | succ k =>
      have hk : k < rest.length := by simpa using hi
      obtain ⟨s, hs⟩ := Option.isSome_iff_exists.mp
        (by simpa using hrest 0 (by simp) (Nat.succ_ne_zero k).symm)
      simp only [summarizeStage, hs, List.eraseIdx_cons_succ, List.map_cons]
      rw [List.cons_eq_cons]
      constructor
      · simp [hs]
      · refine ih k hk (by simpa using hfail) ?_
        intro j hj hjk
        have hr := hrest (j + 1) (by simp only [List.length_cons]; omega) (by omega)
        simpa using hr

/-- C5: if the per-file backend call fails for exactly the file at index
`i` of the `n` fetched files, the FileSummary sequence is the in-order
map over the other `n - 1` files (so it has exactly `n - 1` elements,
excludes file `i`, and preserves relative order), no summary - and
hence no Document heading or body, the Document being assembled from
exactly this sequence - carries file `i`'s name, and the run continues
into the aggregation stage with that sequence. -/
theorem c5_per_file_failure_isolated (env : MainEnv) (i : Nat)
    (hllm : env.llmOk = true)
    (hi : i < (fetch_files env.root env.file_extensions).length)
    (hfail : summarize_file env.llm
      ((fetch_files env.root env.file_extensions).getD i defaultRecord).name
      ((fetch_files env.root env.file_extensions).getD i defaultRecord).content = none)
    (hrest : ∀ j, j < (fetch_files env.root env.file_extensions).length → j ≠ i →
      (summarize_file env.llm
        ((fetch_files env.root env.file_extensions).getD j defaultRecord).name
        ((fetch_files env.root env.file_extensions).getD j defaultRecord).content).isSome = true)
    (hname : ∀ f ∈ (fetch_files env.root env.file_extensions).eraseIdx i,
      f.name ≠ ((fetch_files env.root env.file_extensions).getD i defaultRecord).name) :
    summarizeStage env.llm (fetch_files env.root env.file_extensions) =
      ((fetch_files env.root env.file_extensions).eraseIdx i).map
        (fun f => ⟨f.name, f.path, (summarize_file env.llm f.name f.content).getD ""⟩) ∧
    (summarizeStage env.llm (fetch_files env.root env.file_extensions)).length =
      (fetch_files env.root env.file_extensions).length - 1 ∧
    ((fetch_files env.root env.file_extensions).getD i defaultRecord).name ∉
      (summarizeStage env.llm (fetch_files env.root env.file_extensions)).map
        FileSummary.filename ∧
    (mainRun env).aggCalls =
      [summarizeStage env.llm (fetch_files env.root env.file_extensions)] := by
  have hmain := summarizeStage_erase_of_fail env.llm
    (fetch_files env.root env.file_extensions) i hi hfail hrest
  have hlen : ((fetch_files env.root env.file_extensions).eraseIdx i).length + 1 =
      (fetch_files env.root env.file_extensions).length :=
    List.length_eraseIdx_add_one hi
  refine ⟨hmain, ?_, ?_, ?_⟩
  · rw [hmain, List.length_map]
    omega
  · rw [hmain, List.map_map]
    intro hmem
    obtain ⟨g, hg, hgn⟩ := List.mem_map.mp hmem
    exact hname g hg hgn
  · have hne : (fetch_files env.root env.file_extensions).isEmpty = false := by
      cases hfe : fetch_files env.root env.file_extensions with
      | nil => rw [hfe] at hi; simp at hi
      | cons a l => rfl
    simp only [mainRun, hne, hllm, Bool.true_eq_false, if_false]
    cases generate_repo_summary env.llm
      (summarizeStage env.llm (fetch_files env.root env.file_extensions)) <;> rfl

/-- The concrete run behind the C5 witness: two inline files, a backend
that raises exactly on `a.py`'s rendered prompt. -/
def c5Env : MainEnv where
  root := .items (.fileN ⟨"a.py", "a.py", .inlineContent "ca"⟩
    (.fileN ⟨"b.py", "b.py", .inlineContent "cb"⟩ .nil))
  file_extensions := none
  llmOk := true
  llm := fun p => if p = summary_prompt "a.py" "ca" then none else some "S"
  pushEnabled := false
  token := none
  pushEnv := ⟨none, fun _ => none⟩

set_option maxRecDepth 8192 in
/-- Concrete instance of C5: with `a.py` failing, only `b.py` survives
into the summary sequence and the aggregation argument. -/
theorem c5_per_file_failure_isolated_witness :
    summarizeStage c5Env.llm (fetch_files c5Env.root c5Env.file_extensions) =
      ((fetch_files c5Env.root c5Env.file_extensions).eraseIdx 0).map
        (fun f => ⟨f.name, f.path, (summarize_file c5Env.llm f.name f.content).getD ""⟩) ∧
    (summarizeStage c5Env.llm (fetch_files c5Env.root c5Env.file_extensions)).length =
      (fetch_files c5Env.root c5Env.file_extensions).length - 1 ∧
    ((fetch_files c5Env.root c5Env.file_extensions).getD 0 defaultRecord).name ∉
      (summarizeStage c5Env.llm (fetch_files c5Env.root c5Env.file_extensions)).map
        FileSummary.filename ∧
    (mainRun c5Env).aggCalls =
      [summarizeStage c5Env.llm (fetch_files c5Env.root c5Env.file_extensions)] :=
  c5_per_file_failure_isolated c5Env 0 rfl (by decide) (by decide) (by decide) (by decide)

/-- The concrete run behind C3's counterexample: one fetched file and a
backend that always raises. -/
def c3Env : MainEnv where
  root := .single ⟨"a.py", "a.py", .inlineContent "x"⟩
  file_extensions := none
  llmOk := true
  llm := fun _ => none
  pushEnabled := false
  token := none
  pushEnv := ⟨none, fun _ => none⟩

/-- C3 as stated is false: in a run where one file is fetched and its
summarization fails, the surviving FileSummary set is empty, yet `main`
does not halt before stage 4 - `generate_repo_summary`, whose single
backend call is unconditional, is invoked over the empty sequence. -/
theorem c3_counterexample :
    fetch_files c3Env.root c3Env.file_extensions = [⟨"a.py", "a.py", "x"⟩] ∧
    summarizeStage c3Env.llm (fetch_files c3Env.root c3Env.file_extensions) = [] ∧
    (mainRun c3Env).aggCalls = [[]] :=
  ⟨by decide, by decide, by decide⟩

/-- C3 amended: the pipeline halts before the aggregation stage only
when the fetch stage yields zero files (or LLM initialization fails);
whenever at least one file was fetched and the LLM initialized, the
aggregation call is made exactly once, over whatever FileSummary
sequence survived stage 3 - including the empty sequence when every
per-file call failed. -/
theorem c3_amended_aggregation_always_called (env : MainEnv) :
    (mainRun env).aggCalls =
      if (fetch_files env.root env.file_extensions).isEmpty || !env.llmOk then []
      else [summarizeStage env.llm (fetch_files env.root env.file_extensions)] := by
  cases hE : (fetch_files env.root env.file_extensions).isEmpty with
  | true => simp [mainRun, hE]
  | false =>
    cases hL : env.llmOk with
    | false => simp [mainRun, hE, hL]
    | true =>
      simp only [mainRun, hE, hL, Bool.false_or, Bool.not_true, Bool.true_eq_false, if_false]
      cases generate_repo_summary env.llm
        (summarizeStage env.llm (fetch_files env.root env.file_extensions)) <;> simp

/-- C6: when the aggregation backend call fails, the run terminates on
the error path: no Document is assembled, nothing is written to
`SUMMARY.md`, and no publish is attempted.  `mainRun` being total
reflects that the `except` clause at lines 348-350 converts the
exception into a printed report plus `return`, so nothing escapes. -/
theorem c6_aggregation_failure_is_fatal (env : MainEnv)
    (hne : (fetch_files env.root env.file_extensions).isEmpty = false)
    (hllm : env.llmOk = true)
    (hagg : generate_repo_summary env.llm
      (summarizeStage env.llm (fetch_files env.root env.file_extensions)) = none) :
    (mainRun env).result = .aggregationFailed ∧ (mainRun env).document = none ∧
    (mainRun env).written = none ∧ (mainRun env).pushResult = none := by
  simp [mainRun, hne, hllm, hagg]

/-- The concrete run behind the C6 witness: the backend succeeds on the
per-file prompt and raises on the merge prompt. -/
def c6Env : MainEnv where
  root := .single ⟨"a.py", "a.py", .inlineContent "x"⟩
  file_extensions := none
  llmOk := true
  llm := fun p => if p = summary_prompt "a.py" "x" then some "S" else none
  pushEnabled := false
  token := none
  pushEnv := ⟨none, fun _ => none⟩

set_option maxRecDepth 8192 in
/-- Concrete instance of C6: aggregation fails, the run ends with no
document, no write, no push. -/
theorem c6_aggregation_failure_is_fatal_witness :
    (mainRun c6Env).result = .aggregationFailed ∧ (mainRun c6Env).document = none ∧
    (mainRun c6Env).written = none ∧ (mainRun c6Env).pushResult = none :=
  c6_aggregation_failure_is_fatal c6Env (by decide) rfl (by decide)

/-- C7: the GET on the target path always happens, first; a non-200 GET
yields a PUT body containing no `sha` field at all, and a 200 GET whose
body carries the hash token `s` yields a PUT body echoing exactly
`sha = s`, verbatim. -/
theorem c7_get_before_put_sha_echo (env : PubEnv) (text : String) :
    ((push_summary_to_github env text).trace = [.getEv] ∨
     (push_summary_to_github env text).trace = [.getEv, .putEv]) ∧
    (∀ g, env.getResult = some g → g.status ≠ 200 →
      (push_summary_to_github env text).putBody =
        some ⟨"Add AI-generated summary", b64encodeOfString text, "main", none⟩) ∧
    (∀ g s, env.getResult = some g → g.status = 200 → g.shaField = some s →
      (push_summary_to_github env text).putBody =
        some ⟨"Add AI-generated summary", b64encodeOfString text, "main", some s⟩) := by
  have hput : ∀ body, (pushPut env body).trace = [.getEv, .putEv] ∧
      (pushPut env body).putBody = some body := by
    intro body
    unfold pushPut
    cases env.putResult body with
    | none => exact ⟨rfl, rfl⟩
    | some st => by_cases h : 400 ≤ st ∧ st < 600 <;> simp [h]
  refine ⟨?_, ?_, ?_⟩
  · unfold push_summary_to_github
    cases env.getResult with
    | none => exact Or.inl rfl
    | some g =>
      dsimp only
      by_cases h200 : g.status = 200
      · rw [if_pos h200]
        cases g.shaField with
        | none => exact Or.inl rfl
        | some s => exact Or.inr (hput _).1
      · rw [if_neg h200]
        exact Or.inr (hput _).1
  · intro g hg hne
    unfold push_summary_to_github
    rw [hg]
    dsimp only
    rw [if_neg hne]
    exact (hput _).2
  · intro g s hg h200 hs
    unfold push_summary_to_github
    rw [hg]
    dsimp only
    rw [if_pos h200, hs]
    exact (hput _).2

/-- Concrete instance of C7: a 200 GET's token is echoed, a 404 GET
leads to a sha-free PUT body, and the GET always comes first. -/
theorem c7_get_before_put_sha_echo_witness :
    ((push_summary_to_github ⟨some ⟨200, some "tok"⟩, fun _ => some 200⟩ "d").trace =
        [.getEv] ∨
     (push_summary_to_github ⟨some ⟨200, some "tok"⟩, fun _ => some 200⟩ "d").trace =
        [.getEv, .putEv]) ∧
    (push_summary_to_github ⟨some ⟨200, some "tok"⟩, fun _ => some 200⟩ "d").putBody =
      some ⟨"Add AI-generated summary", b64encodeOfString "d", "main", some "tok"⟩ ∧
    (push_summary_to_github ⟨some ⟨404, none⟩, fun _ => some 200⟩ "d").putBody =
      some ⟨"Add AI-generated summary", b64encodeOfString "d", "main", none⟩ :=
  ⟨(c7_get_before_put_sha_echo ⟨some ⟨200, some "tok"⟩, fun _ => some 200⟩ "d").1,
   (c7_get_before_put_sha_echo ⟨some ⟨200, some "tok"⟩, fun _ => some 200⟩ "d").2.2
     ⟨200, some "tok"⟩ "tok" rfl rfl rfl,
   (c7_get_before_put_sha_echo ⟨some ⟨404, none⟩, fun _ => some 200⟩ "d").2.1
     ⟨404, none⟩ rfl (by decide)⟩

/-- C8 as stated is false: on a 200 GET whose JSON body lacks the hash
token field, `existing_file["sha"]` raises `KeyError`, which the
`except requests.exceptions.RequestException` clause does not catch -
the call raises past the adapter boundary instead of returning a
boolean. -/
theorem c8_counterexample :
    (push_summary_to_github ⟨some ⟨200, none⟩, fun _ => some 200⟩ "doc").outcome =
      .raisesKeyError ∧
    (push_summary_to_github ⟨some ⟨200, none⟩, fun _ => some 200⟩ "doc").outcome ≠
      .returns false ∧
    (push_summary_to_github ⟨some ⟨200, none⟩, fun _ => some 200⟩ "doc").outcome ≠
      .returns true :=
  ⟨rfl, by decide, by decide⟩

/-- The boolean `push_summary_to_github` returns once the PUT is
reached: `False` on a transport failure or a 400-599 status (the only
statuses `raise_for_status` raises for), `True` on any other status. -/
def putReturnValue (env : PubEnv) (body : PutBody) : Bool :=
  match env.putResult body with
  | none => false
  | some st => if 400 ≤ st ∧ st < 600 then false else true

/-- C8 amended: the adapter returns a boolean for every transport-level
outcome - `false` when the GET raises, and, once the PUT is reached,
`false` exactly for a PUT transport failure or a PUT status in 400-599
and `true` for every other status (so a non-2xx status outside 400-599
yields `true`, not `false`); but a 200 GET response whose body lacks
the hash token field raises `KeyError` past the adapter boundary. -/
theorem c8_amended_boolean_or_keyerror (env : PubEnv) (text : String) :
    (env.getResult = none → (push_summary_to_github env text).outcome = .returns false) ∧
    (∀ g, env.getResult = some g → g.status = 200 → g.shaField = none →
      (push_summary_to_github env text).outcome = .raisesKeyError) ∧
    (∀ g, env.getResult = some g → (g.status = 200 → g.shaField ≠ none) →
      ∃ body, (push_summary_to_github env text).putBody = some body ∧
        (push_summary_to_github env text).outcome = .returns (putReturnValue env body)) := by
  have hput : ∀ body, (pushPut env body).outcome = .returns (putReturnValue env body) ∧
      (pushPut env body).putBody = some body := by
    intro body
    unfold pushPut putReturnValue
    cases env.putResult body with
    | none => exact ⟨rfl, rfl⟩
    | some st => by_cases h : 400 ≤ st ∧ st < 600 <;> simp [h]
  refine ⟨?_, ?_, ?_⟩
  · intro hg
    unfold push_summary_to_github
    rw [hg]
  · intro g hg h200 hs
    unfold push_summary_to_github
    rw [hg]
    dsimp only
    rw [if_pos h200, hs]
  · intro g hg hcond
    unfold push_summary_to_github
    rw [hg]
    dsimp only
    by_cases h200 : g.status = 200
    · cases hs : g.shaField with
      | none => exact absurd hs (hcond h200)
      | some s =>
        rw [if_pos h200]
        exact ⟨_, (hput _).2, (hput _).1⟩
    · rw [if_neg h200]
      exact ⟨_, (hput _).2, (hput _).1⟩

/-- Concrete instances of the amended C8: a failing GET returns `false`;
a 200 GET with a token followed by a 201 PUT returns `true`; a 404 GET
followed by a 201 PUT returns `true`. -/
theorem c8_amended_boolean_or_keyerror_witness :
    (push_summary_to_github ⟨none, fun _ => some 201⟩ "z").outcome = .returns false ∧
    (push_summary_to_github ⟨some ⟨200, some "abc"⟩, fun _ => some 201⟩ "x").outcome =
      .returns true ∧
    (push_summary_to_github ⟨some ⟨404, none⟩, fun _ => some 201⟩ "y").outcome =
      .returns true := by
  refine ⟨(c8_amended_boolean_or_keyerror ⟨none, fun _ => some 201⟩ "z").1 rfl, ?_, ?_⟩
  · obtain ⟨b, hb, ho⟩ :=
      (c8_amended_boolean_or_keyerror ⟨some ⟨200, some "abc"⟩, fun _ => some 201⟩ "x").2.2
        ⟨200, some "abc"⟩ rfl (by decide)
    rw [ho]
    rfl
  · obtain ⟨b, hb, ho⟩ :=
      (c8_amended_boolean_or_keyerror ⟨some ⟨404, none⟩, fun _ => some 201⟩ "y").2.2
        ⟨404, none⟩ rfl (by decide)
    rw [ho]
    rfl
